import Mathlib

/-!
Shallow embedding of the cache synchronization subsystem
(src/pipeline_runner/cache.py) and of the pipeline specification model of
the pipeline-runner repository, with theorems settling the claims about
its error policies, strategy dispatch and parsing rules.
-/

namespace PipelineRunner

/-- A cache definition: the `Cache` model only contributes its path here. -/
structure Cache where
  path : String
  deriving Repr, DecidableEq

/-- The configuration values the cache module reads:
`utils.get_local_cache_directory()` and `config.caches_dir`. -/
structure Config where
  localCacheDir : String
  cachesDir : String
  deriving Repr, DecidableEq

/-- `pre` is a prefix of `l`, over character lists. -/
def listPrefixOf : List Char → List Char → Bool
  | [], _ => true
  | _ :: _, [] => false
  | a :: as, b :: bs => a = b && listPrefixOf as bs

/-- Kernel-computable `String.startsWith`. -/
def strStartsWith (s pre : String) : Bool := listPrefixOf pre.toList s.toList

/-- Kernel-computable `String.endsWith`. -/
def strEndsWith (s suf : String) : Bool :=
  listPrefixOf suf.toList.reverse s.toList.reverse

/-- Kernel-computable `String.drop`. -/
def strDrop (s : String) (n : Nat) : String := String.mk (s.toList.drop n)

/-- Split a character list at every occurrence of `c` (the semantics of
Python `str.split` with a one-character separator). -/
def splitOnChar (c : Char) : List Char → List (List Char)
  | [] => [[]]
  | a :: rest =>
      let r := splitOnChar c rest
      if a = c then [] :: r
      else
        match r with
        | [] => [[a]]
        | h :: t => (a :: h) :: t

/-- Kernel-computable single-character `String.splitOn`. -/
def strSplitOnChar (s : String) (c : Char) : List String :=
  (splitOnChar c s.toList).map String.mk

/-- Join path components with slashes. -/
def joinWithSlash : List String → String
  | [] => ""
  | [x] => x
  | x :: rest => x ++ "/" ++ joinWithSlash rest

/-- `os.path.join(a, b)` for the two-argument uses in cache.py. -/
def ospathJoin (a b : String) : String :=
  if strStartsWith b "/" then b
  else if a = "" then b
  else if strEndsWith a "/" then a ++ b
  else a ++ "/" ++ b

/-- `os.path.dirname`. -/
def ospathDirname (p : String) : String :=
  let parts := strSplitOnChar p '/'
  if parts.length ≤ 1 then ""
  else
    let joined := joinWithSlash parts.dropLast
    if joined = "" then "/" else joined

/-- `get_local_cache_archive_path(cache_name)`:
`os.path.join(utils.get_local_cache_directory(), f"{cache_name}.tar")`. -/
def get_local_cache_archive_path (cfg : Config) (cache_name : String) : String :=
  ospathJoin cfg.localCacheDir (cache_name ++ ".tar")

/-- `get_remote_temp_directory(cache_name)`:
`os.path.join(config.caches_dir, cache_name)`. -/
def get_remote_temp_directory (cfg : Config) (cache_name : String) : String :=
  ospathJoin cfg.cachesDir cache_name

/-- `sanitize_remote_path(path)`: if the path starts with a tilde, the first
tilde is replaced by the literal text dollar-HOME. -/
def sanitize_remote_path (path : String) : String :=
  if strStartsWith path "~" then "$HOME" ++ strDrop path 1 else path

/-- Observable side effects of one cache operation: remote container calls,
local filesystem mutations and docker-image-store operations. -/
inductive Effect where
  | runCommand (script : String)
  | putArchive (dir : String)
  | pathExistsQ (p : String)
  | getArchive (src : String)
  | createTemp (name : String)
  | writeChunk (file : String) (len : Nat)
  | unlink (p : String)
  | rename (src dst : String)
  | makeDirs (p : String)
  | loadImage (archivePath : String)
  deriving Repr, DecidableEq

/-- Remote container calls (`run_command`, `put_archive`, `path_exists`,
`get_archive` on the `ContainerRunner`). -/
def Effect.isRemote : Effect → Bool
  | .runCommand _ => true
  | .putArchive _ => true
  | .pathExistsQ _ => true
  | .getArchive _ => true
  | _ => false

/-- Local filesystem writes (temp file creation, chunk writes, unlink,
rename, makedirs). -/
def Effect.isLocalWrite : Effect → Bool
  | .createTemp _ => true
  | .writeChunk _ _ => true
  | .unlink _ => true
  | .rename _ _ => true
  | .makeDirs _ => true
  | _ => false

/-- The log events the cache module emits (elapsed-time and byte-count
values of the info messages are observability only and are kept abstract
or dropped). -/
inductive LogMsg where
  | notFoundSkipping (name : String)
  | uploading (name : String)
  | remoteCommandFailed (output : String)
  | uploaded (name : String) (size : Nat)
  | restoring (name : String)
  | restored (name : String)
  | ignoring (name : String)
  | preparing (name : String)
  | prepared (name : String)
  | notFound (name : String)
  | downloading (name : String)
  | errorGettingCache (name : String) (e : String)
  | downloaded (name : String) (size : Nat)
  | saving (name : String)
  | savedImages (name : String) (count : Nat)
  | restoringImages (name : String)
  | restoredImages (name : String) (count : Nat)
  deriving Repr, DecidableEq

/-- A raised failure: `keyError` models an unguarded dict lookup miss on
`cache_definitions`; `exn msg` models `raise Exception(msg)`. -/
inductive CacheError where
  | keyError (name : String)
  | exn (msg : String)
  deriving Repr, DecidableEq

/-- `True` exactly for the `Exception` raises (the transfer errors);
a `KeyError` is not one of them. -/
def CacheError.isTransfer : CacheError → Bool
  | .exn _ => true
  | .keyError _ => false

/-- One item produced by iterating the archive chunk stream: a chunk of a
given byte length, or an exception raised by the iteration. -/
inductive StreamItem where
  | chunk (len : Nat)
  | raiseErr (msg : String)
  deriving Repr, DecidableEq

/-- Whether iterating the stream raises before it is exhausted. -/
def streamFails : List StreamItem → Bool
  | [] => false
  | .chunk _ :: rest => streamFails rest
  | .raiseErr _ :: _ => true

/-- The chunk writes performed into file `f` before the stream ends or
raises. -/
def streamWrites (f : String) : List StreamItem → List Effect
  | [] => []
  | .chunk n :: rest => .writeChunk f n :: streamWrites f rest
  | .raiseErr _ :: _ => []

/-- Total byte count accumulated over the successfully written chunks. -/
def streamSize : List StreamItem → Nat
  | [] => 0
  | .chunk n :: rest => n + streamSize rest
  | .raiseErr _ :: _ => 0

/-- The message of the exception the stream iteration raises, if any. -/
def streamErrMsg : List StreamItem → String
  | [] => ""
  | .chunk _ :: rest => streamErrMsg rest
  | .raiseErr m :: _ => m

/-- The environment one `CacheRestore` call observes: local file existence,
remote command results, `put_archive` success, and (for the docker strategy)
the state of the local docker image-archive directory. -/
structure RestoreEnv where
  localExists : String → Bool
  runCommand : String → Nat × String
  putArchiveOk : Bool
  dockerDirExists : Bool
  dockerDirListing : List String

/-- The result of one strategy invocation: raised error or normal return,
plus the effect trace and the log trace. -/
instance : DecidableEq (Except CacheError Unit) := fun a b =>
  match a, b with
  | .ok (), .ok () => isTrue rfl
  | .error e, .error f =>
      if h : e = f then isTrue (by rw [h]) else isFalse (by intro hc; cases hc; exact h rfl)
  | .ok (), .error _ => isFalse (by intro hc; cases hc)
  | .error _, .ok () => isFalse (by intro hc; cases hc)

structure RunResult where
  result : Except CacheError Unit
  effects : List Effect
  logs : List LogMsg
  deriving Repr, DecidableEq

/-- The remote script `_upload_cache` builds to clear a stale staging
directory and create its parent. -/
def prepare_cache_dir_cmd (remoteCacheDirectory remoteParent : String) : String :=
  "[ -d \"" ++ remoteCacheDirectory ++ "\" ] && rm -rf \"" ++ remoteCacheDirectory
    ++ "\"; mkdir -p \"" ++ remoteParent ++ "\""

/-- The remote script `_restore_cache` builds (three lines joined by a
newline): remove the target, make its parent, move the staged directory
into place. -/
def restore_cache_script (tempDir targetDir : String) : String :=
  "if [ -e \"" ++ targetDir ++ "\" ]; then rm -rf \"" ++ targetDir ++ "\"; fi\n"
    ++ "mkdir -p \"$(dirname \"" ++ targetDir ++ "\")\"\n"
    ++ "mv \"" ++ tempDir ++ "\" \"" ++ targetDir ++ "\""

namespace CacheRestore

/-- `CacheRestore.restore`: skip when the local archive is absent, else
upload it into the staging directory and issue the placement command.
The `cache_definitions[self._cache_name]` lookup of `_restore_cache` is
unguarded: a missing key raises `KeyError` after the upload phase. -/
def restore (cfg : Config) (env : RestoreEnv) (defs : String → Option Cache)
    (name : String) : RunResult :=
  let cacheFile := get_local_cache_archive_path cfg name
  if ¬ env.localExists cacheFile then
    ⟨.ok (), [], [.notFoundSkipping name]⟩
  else
    -- _upload_cache
    let remoteCacheDirectory := get_remote_temp_directory cfg name
    let remoteParent := ospathDirname remoteCacheDirectory
    let prepCmd := prepare_cache_dir_cmd remoteCacheDirectory remoteParent
    let res := env.runCommand prepCmd
    if res.1 ≠ 0 then
      ⟨.error (.exn ("Error uploading cache: " ++ name)),
        [.runCommand prepCmd],
        [.uploading name, .remoteCommandFailed res.2]⟩
    else if ¬ env.putArchiveOk then
      ⟨.error (.exn ("Error uploading cache: " ++ name)),
        [.runCommand prepCmd, .putArchive remoteParent],
        [.uploading name]⟩
    else
      -- _restore_cache
      match defs name with
      | none =>
          ⟨.error (.keyError name),
            [.runCommand prepCmd, .putArchive remoteParent],
            [.uploading name, .uploaded name 0]⟩
      | some c =>
          let targetDir := sanitize_remote_path c.path
          let script := restore_cache_script (get_remote_temp_directory cfg name) targetDir
          let r2 := env.runCommand script
          if r2.1 ≠ 0 then
            ⟨.error (.exn ("Error restoring cache: " ++ name ++ ": " ++ r2.2)),
              [.runCommand prepCmd, .putArchive remoteParent, .runCommand script],
              [.uploading name, .uploaded name 0, .restoring name]⟩
          else
            ⟨.ok (),
              [.runCommand prepCmd, .putArchive remoteParent, .runCommand script],
              [.uploading name, .uploaded name 0, .restoring name, .restored name]⟩

end CacheRestore

/-- `DockerCacheRestore.restore`: loads every archive found under the
`docker` subdirectory of the local cache directory back into the image
store; absent or empty directory is a no-op. -/
def DockerCacheRestore.restore (cfg : Config) (env : RestoreEnv)
    (name : String) : RunResult :=
  let cacheDir := ospathJoin cfg.localCacheDir "docker"
  if ¬ env.dockerDirExists ∨ env.dockerDirListing = [] then
    ⟨.ok (), [], [.notFoundSkipping name]⟩
  else
    ⟨.ok (),
      env.dockerDirListing.map (fun img => .loadImage (ospathJoin cacheDir img)),
      [.restoringImages name, .restoredImages name env.dockerDirListing.length]⟩

/-- `NullCacheRestore.restore`: log "Ignoring" and return. -/
def NullCacheRestore.restore (name : String) : RunResult :=
  ⟨.ok (), [], [.ignoring name]⟩

/-- The three restore strategy classes a factory can instantiate. -/
inductive RestoreStrategy where
  | generic
  | dockerImage
  | nullStrategy
  deriving Repr, DecidableEq

/-- `CacheRestoreFactory.get`: the name "docker" selects `NullCacheRestore`,
every other name selects `CacheRestore`. -/
def CacheRestoreFactory.get (cache_name : String) : RestoreStrategy :=
  if cache_name = "docker" then .nullStrategy else .generic

/-- Dispatch through `CacheRestoreFactory.get` and invoke the selected
strategy's `restore`. -/
def runRestore (cfg : Config) (env : RestoreEnv) (defs : String → Option Cache)
    (name : String) : RunResult :=
  match CacheRestoreFactory.get name with
  | .generic => CacheRestore.restore cfg env defs name
  | .dockerImage => DockerCacheRestore.restore cfg env name
  | .nullStrategy => NullCacheRestore.restore name

/-- A docker image as `DockerCacheSave` sees it: its tag list, its short id
(of the form algo-colon-digest), the chunk stream `image.save` yields, and
the unique name `NamedTemporaryFile` allocates for its export. -/
structure DockerImage where
  tags : List String
  shortId : String
  saveStream : List StreamItem
  tmpName : String
  deriving Repr, DecidableEq

/-- The environment one `CacheSave` call observes: remote command results,
remote path existence, the name `NamedTemporaryFile` allocates, the archive
chunk stream `get_archive` yields, and (for the docker strategy) the local
docker directory state and image list. -/
structure SaveEnv where
  runCommand : String → Nat × String
  pathExists : String → Bool
  tmpName : String
  stream : List StreamItem
  dockerDirExists : Bool
  images : List DockerImage
  slugify : String → String

/-- The remote script `_prepare` builds: move the cache source directory to
the staging path when it exists. -/
def prepare_cache_cmd (remoteDir targetDir : String) : String :=
  "if [ -e \"" ++ remoteDir ++ "\" ]; then mv \"" ++ remoteDir ++ "\" \""
    ++ targetDir ++ "\"; fi"

namespace CacheSave

/-- `CacheSave._download(src, dst)`: skip when the staging path is absent in
the container; otherwise stream the remote archive into a fresh temporary
file — on any exception unlink the temporary file and return normally, on
success rename it onto `dst`. -/
def download (env : SaveEnv) (name src dst : String) : RunResult :=
  if ¬ env.pathExists src then
    ⟨.ok (), [.pathExistsQ src], [.notFound name]⟩
  else
    let writes := streamWrites env.tmpName env.stream
    if streamFails env.stream then
      ⟨.ok (),
        [.pathExistsQ src, .createTemp env.tmpName, .getArchive src] ++ writes
          ++ [.unlink env.tmpName],
        [.downloading name, .errorGettingCache name (streamErrMsg env.stream)]⟩
    else
      ⟨.ok (),
        [.pathExistsQ src, .createTemp env.tmpName, .getArchive src] ++ writes
          ++ [.rename env.tmpName dst],
        [.downloading name, .downloaded name (streamSize env.stream)]⟩

/-- `CacheSave.save`: `_prepare` (whose `cache_definitions[...]` lookup is
unguarded and happens before any remote command) followed by `_download`
into the local archive path. -/
def save (cfg : Config) (env : SaveEnv) (defs : String → Option Cache)
    (name : String) : RunResult :=
  match defs name with
  | none => ⟨.error (.keyError name), [], []⟩
  | some c =>
      let remoteDir := sanitize_remote_path c.path
      let targetDir := get_remote_temp_directory cfg name
      let prepCmd := prepare_cache_cmd remoteDir targetDir
      let res := env.runCommand prepCmd
      if res.1 ≠ 0 then
        ⟨.error (.exn ("Error preparing cache: " ++ name ++ ": " ++ res.2)),
          [.runCommand prepCmd], [.preparing name]⟩
      else
        let dst := get_local_cache_archive_path cfg name
        let d := download env name targetDir dst
        ⟨d.result, .runCommand prepCmd :: d.effects,
          [.preparing name, .prepared name] ++ d.logs⟩

end CacheSave

/-- The archive base name `DockerCacheSave.save` gives one image: the slug
of its first tag when it has tags, else the digest part of its short id. -/
def dockerImageArchiveName (slug : String → String) (img : DockerImage) : String :=
  match img.tags with
  | t :: _ => slug t
  | [] => (strSplitOnChar img.shortId ':').getD 1 ""

/-- `DockerCacheSave._save_image(image, dst)`: stream the image export into
a fresh temporary file; on any exception unlink it and return (the caller's
loop continues), on success rename it onto `dst`. -/
def DockerCacheSave.saveImage (img : DockerImage) (dst : String) : List Effect :=
  .createTemp img.tmpName :: streamWrites img.tmpName img.saveStream
    ++ (if streamFails img.saveStream then [.unlink img.tmpName]
        else [.rename img.tmpName dst])

/-- `DockerCacheSave.save`: ensure the `docker` subdirectory of the local
cache directory exists, then export every image of the runtime's image
list to its own archive file there. -/
def DockerCacheSave.save (cfg : Config) (env : SaveEnv) (name : String) :
    RunResult :=
  let cacheDir := ospathJoin cfg.localCacheDir "docker"
  let mkEffects : List Effect := if env.dockerDirExists then [] else [.makeDirs cacheDir]
  ⟨.ok (),
    mkEffects ++ env.images.flatMap (fun img =>
      DockerCacheSave.saveImage img
        (ospathJoin cacheDir (dockerImageArchiveName env.slugify img ++ ".tar"))),
    [.saving name, .savedImages name env.images.length]⟩

/-- `NullCacheSave.save`: log "Ignoring" and return. -/
def NullCacheSave.save (name : String) : RunResult :=
  ⟨.ok (), [], [.ignoring name]⟩

/-- The three save strategy classes a factory can instantiate. -/
inductive SaveStrategy where
  | generic
  | dockerImage
  | nullStrategy
  deriving Repr, DecidableEq

/-- `CacheSaveFactory.get`: the name "docker" selects `NullCacheSave`,
every other name selects `CacheSave`. -/
def CacheSaveFactory.get (cache_name : String) : SaveStrategy :=
  if cache_name = "docker" then .nullStrategy else .generic

/-- Dispatch through `CacheSaveFactory.get` and invoke the selected
strategy's `save`. -/
def runSave (cfg : Config) (env : SaveEnv) (defs : String → Option Cache)
    (name : String) : RunResult :=
  match CacheSaveFactory.get name with
  | .generic => CacheSave.save cfg env defs name
  | .dockerImage => DockerCacheSave.save cfg env name
  | .nullStrategy => NullCacheSave.save name

namespace CacheManager

/-- The sequential per-name loop both manager operations share: each
iteration instantiates a strategy and invokes it with no surrounding
try/except, so the first raised error propagates and ends the loop. The
second component records the names whose strategy was invoked. -/
def runAll (step : String → Except CacheError Unit) :
    List String → Except CacheError Unit × List String
  | [] => (.ok (), [])
  | n :: rest =>
      match step n with
      | .error e => (.error e, [n])
      | .ok _ =>
          let r := runAll step rest
          (r.1, n :: r.2)

/-- `CacheManager.upload(cache_names)` (restoreAll): for each name, get a
restore strategy from `CacheRestoreFactory` and call `restore()`. -/
def upload (cfg : Config) (envs : String → RestoreEnv)
    (defs : String → Option Cache) (names : List String) :
    Except CacheError Unit × List String :=
  runAll (fun n => (runRestore cfg (envs n) defs n).result) names

/-- `CacheManager.download(cache_names)` (saveAll): for each name, get a
save strategy from `CacheSaveFactory` and call `save()`. -/
def download (cfg : Config) (envs : String → SaveEnv)
    (defs : String → Option Cache) (names : List String) :
    Except CacheError Unit × List String :=
  runAll (fun n => (runSave cfg (envs n) defs n).result) names

end CacheManager

/-- `sub` occurs as a prefix of some suffix of `l`. -/
def listContains (sub : List Char) : List Char → Bool
  | [] => listPrefixOf sub []
  | c :: rest => listPrefixOf sub (c :: rest) || listContains sub rest

/-- `sub` occurs as a contiguous substring of `s`. -/
def strContains (s sub : String) : Bool :=
  listContains sub.toList s.toList

/-- The opening curly brace character, `Char.ofNat 123`. -/
def lbraceChar : Char := Char.ofNat 123

/-- The closing curly brace character, `Char.ofNat 125`. -/
def rbraceChar : Char := Char.ofNat 125

/-- The single-quote character, `Char.ofNat 39`. -/
def squoteChar : Char := Char.ofNat 39

/-- A character that may appear in a variable name of a dollar token. -/
def isIdentChar (c : Char) : Bool := c.isAlphanum || c = '_'

/-- Scanner mode of the env-var expansion pass. -/
inductive ExpMode where
  | normal
  | dollar
  | braceAcc (acc : String)
  | identAcc (acc : String)

/-- Scanner state of the env-var expansion pass: output so far plus mode. -/
structure ExpState where
  out : String
  mode : ExpMode

/-- One scanner transition of the env-var expansion pass. -/
def expStep (env : String → Option String) (s : ExpState) (c : Char) : ExpState :=
  match s.mode with
  | .normal =>
      if c = '$' then ⟨s.out, .dollar⟩ else ⟨s.out.push c, .normal⟩
  | .dollar =>
      if c = lbraceChar then ⟨s.out, .braceAcc ""⟩
      else if isIdentChar c then ⟨s.out, .identAcc (String.singleton c)⟩
      else if c = '$' then ⟨s.out.push '$', .dollar⟩
      else ⟨(s.out.push '$').push c, .normal⟩
  | .braceAcc acc =>
      if c = rbraceChar then
        match env acc with
        | some v => ⟨s.out ++ v, .normal⟩
        | none =>
            ⟨s.out ++ "$" ++ String.singleton lbraceChar ++ acc
              ++ String.singleton rbraceChar, .normal⟩
      else ⟨s.out, .braceAcc (acc.push c)⟩
  | .identAcc acc =>
      if isIdentChar c then ⟨s.out, .identAcc (acc.push c)⟩
      else
        let flushed :=
          match env acc with
          | some v => s.out ++ v
          | none => s.out ++ "$" ++ acc
        if c = '$' then ⟨flushed, .dollar⟩ else ⟨flushed.push c, .normal⟩

/-- Flush the scanner state at end of input. -/
def expFinish (env : String → Option String) (s : ExpState) : String :=
  match s.mode with
  | .normal => s.out
  | .dollar => s.out.push '$'
  | .braceAcc acc => s.out ++ "$" ++ String.singleton lbraceChar ++ acc
  | .identAcc acc =>
      match env acc with
      | some v => s.out ++ v
      | none => s.out ++ "$" ++ acc

/-- Modelled from the spec: the env-var substitution the repository's
`models.py` (not under `src/`) applies to string fields — dollar-NAME and
dollar-braced-NAME tokens are replaced from the mapping, unresolved names
are left as-is. -/
def expandVars (env : String → Option String) (s : String) : String :=
  expFinish env (s.toList.foldl (expStep env) ⟨"", .normal⟩)

/-- AWS access-key credentials of an `Image`. -/
structure AwsCredentials where
  access_key_id : String
  secret_access_key : String
  deriving Repr, DecidableEq

/-- The `Image` model: name, registry credentials, uid, AWS credentials. -/
structure Image where
  name : String
  username : Option String := none
  password : Option String := none
  email : Option String := none
  run_as_user : Option Int := none
  aws : Option AwsCredentials := none
  deriving Repr, DecidableEq

/-- Expansion over the AWS credential pair. -/
def AwsCredentials.expand_env_vars (env : String → Option String)
    (a : AwsCredentials) : AwsCredentials :=
  ⟨expandVars env a.access_key_id, expandVars env a.secret_access_key⟩

/-- Modelled from the spec: `Image.expand_env_vars` of the repository's
`models.py` (not under `src/`) — every string field is expanded from the
mapping except `name`, which is passed through entirely unexpanded
(pinned by `src/tests/test_parse.py::test_parse_image_with_envvars`). -/
def Image.expand_env_vars (env : String → Option String) (img : Image) : Image :=
  { img with
    username := img.username.map (expandVars env)
    password := img.password.map (expandVars env)
    email := img.email.map (expandVars env)
    aws := img.aws.map (AwsCredentials.expand_env_vars env) }

/-- A pipeline variable declaration. -/
structure Variable where
  name : String
  default : Option String := none
  deriving Repr, DecidableEq

/-- A step, reduced to the fields the pipeline-item claims need. -/
structure Step where
  name : Option String := none
  script : List String := []
  deriving Repr, DecidableEq

/-- One discriminated element of a `Pipeline`: a `variables` block, a
wrapped `step`, or a `parallel` group. -/
inductive PipelineItem where
  | variables (vs : List Variable)
  | stepItem (s : Step)
  | parallel (ss : List Step)
  deriving Repr, DecidableEq

/-- Whether the element carries the `variables` key. -/
def PipelineItem.isVariables : PipelineItem → Bool
  | .variables _ => true
  | _ => false

/-- The validator message pinned by
`src/tests/test_parse.py::test_variables_can_only_be_the_first_element_of_the_pipelines`. -/
def variablesFirstMsg : String :=
  String.singleton squoteChar ++ "variables" ++ String.singleton squoteChar
    ++ " can only be the first element of the list"

/-- Modelled from the spec: the `Pipeline` root validator of the
repository's `models.py` (not under `src/`) — parsing keeps the ordered
item list and fails with a `SchemaError` carrying `variablesFirstMsg` when
an element at any index other than 0 carries `variables` (message pinned by
the tests under `src/tests`). -/
def Pipeline.parse (items : List PipelineItem) :
    Except String (List PipelineItem) :=
  if (items.drop 1).any PipelineItem.isVariables then .error variablesFirstMsg
  else .ok items

/-! ## Helper lemmas -/

theorem rename_mem_streamWrites_iff (f : String) (l : List StreamItem)
    (s d : String) : (Effect.rename s d ∈ streamWrites f l) ↔ False := by
  induction l with
  | nil => simp [streamWrites]
  | cons it rest ih =>
      cases it with
      | chunk n => simpa [streamWrites] using ih
      | raiseErr m => simp [streamWrites]

theorem writeChunk_file_eq_of_mem_streamWrites {s : String} {k : Nat}
    {f : String} (l : List StreamItem)
    (h : Effect.writeChunk s k ∈ streamWrites f l) : s = f := by
  induction l with
  | nil => simp [streamWrites] at h
  | cons it rest ih =>
      cases it with
      | chunk n =>
          simp only [streamWrites, List.mem_cons] at h
          rcases h with h | h
          · injection h with h1 h2
          · exact ih h
      | raiseErr m => simp [streamWrites] at h

theorem runAll_all_ok (step : String → Except CacheError Unit)
    (names : List String) (h : ∀ n ∈ names, step n = .ok ()) :
    CacheManager.runAll step names = (.ok (), names) := by
  induction names with
  | nil => rfl
  | cons n rest ih =>
      have hn : step n = .ok () := h n (by simp)
      simp only [CacheManager.runAll, hn]
      rw [ih (fun m hm => h m (by simp [hm]))]

theorem runAll_first_error (step : String → Except CacheError Unit)
    (pre : List String) (n : String) (post : List String) (e : CacheError)
    (hpre : ∀ m ∈ pre, step m = .ok ()) (hn : step n = .error e) :
    CacheManager.runAll step (pre ++ n :: post) = (.error e, pre ++ [n]) := by
  induction pre with
  | nil => simp only [List.nil_append, CacheManager.runAll, hn]
  | cons m rest ih =>
      have hm : step m = .ok () := hpre m (by simp)
      simp only [List.cons_append, CacheManager.runAll, hm]
      simp only [List.append_eq]
      rw [ih (fun x hx => hpre x (by simp [hx]))]

/-! ## Claims -/

/-- C2: strategy resolution is a pure function of the cache name alone:
both factories select the no-op strategy exactly for the name "docker"
(whatever the manager's `_ignored_caches` set holds), the generic strategy
for every other name, and never the specialized container-image
strategies; the no-op strategies only log "Ignoring" and return with no
remote or local I/O. -/
theorem dispatch_is_pure_function_of_name :
    (CacheRestoreFactory.get "docker" = .nullStrategy
      ∧ CacheSaveFactory.get "docker" = .nullStrategy)
    ∧ (∀ n, n ≠ "docker" →
        CacheRestoreFactory.get n = .generic ∧ CacheSaveFactory.get n = .generic)
    ∧ (∀ n, CacheRestoreFactory.get n ≠ .dockerImage
        ∧ CacheSaveFactory.get n ≠ .dockerImage)
    ∧ (∀ n, NullCacheRestore.restore n = ⟨.ok (), [], [.ignoring n]⟩
        ∧ NullCacheSave.save n = ⟨.ok (), [], [.ignoring n]⟩) := by
  refine ⟨⟨rfl, rfl⟩, ?_, ?_, fun n => ⟨rfl, rfl⟩⟩
  · intro n h
    simp [CacheRestoreFactory.get, CacheSaveFactory.get, h]
  · intro n
    constructor
    · unfold CacheRestoreFactory.get
      split <;> simp
    · unfold CacheSaveFactory.get
      split <;> simp

/-- Closed instance of `dispatch_is_pure_function_of_name`. -/
theorem dispatch_is_pure_function_of_name_witness :
    CacheRestoreFactory.get "pip" = .generic
      ∧ CacheSaveFactory.get "pip" = .generic :=
  dispatch_is_pure_function_of_name.2.1 "pip" (by decide)

/-- C4: when the local archive file of a cache name does not exist, the
generic restore performs no remote calls at all, logs the not-found
skip message and returns without error. -/
theorem restore_miss_no_remote_calls (cfg : Config) (env : RestoreEnv)
    (defs : String → Option Cache) (name : String)
    (h : env.localExists (get_local_cache_archive_path cfg name) = false) :
    CacheRestore.restore cfg env defs name = ⟨.ok (), [], [.notFoundSkipping name]⟩
      ∧ ∀ e ∈ (CacheRestore.restore cfg env defs name).effects, e.isRemote = false := by
  have heq : CacheRestore.restore cfg env defs name
      = ⟨.ok (), [], [.notFoundSkipping name]⟩ := by
    simp [CacheRestore.restore, h]
  refine ⟨heq, ?_⟩
  rw [heq]
  intro e he
  simp at he

/-- Closed instance of `restore_miss_no_remote_calls`. -/
theorem restore_miss_no_remote_calls_witness :
    CacheRestore.restore ⟨"/c", "/r"⟩ ⟨fun _ => false, fun _ => (0, ""), true, false, []⟩
        (fun _ => none) "pip"
      = ⟨.ok (), [], [.notFoundSkipping "pip"]⟩ :=
  (restore_miss_no_remote_calls ⟨"/c", "/r"⟩
    ⟨fun _ => false, fun _ => (0, ""), true, false, []⟩ (fun _ => none) "pip" rfl).1

/-- C5: when the remote rename-to-staging command succeeds but the staging
path does not exist in the container, the generic save performs zero local
filesystem writes and returns without error. -/
theorem save_remote_miss_no_local_writes (cfg : Config) (env : SaveEnv)
    (defs : String → Option Cache) (name : String) (c : Cache)
    (hdef : defs name = some c)
    (hprep : (env.runCommand (prepare_cache_cmd (sanitize_remote_path c.path)
        (get_remote_temp_directory cfg name))).1 = 0)
    (hexists : env.pathExists (get_remote_temp_directory cfg name) = false) :
    (CacheSave.save cfg env defs name).result = .ok ()
      ∧ (CacheSave.save cfg env defs name).effects
          = [.runCommand (prepare_cache_cmd (sanitize_remote_path c.path)
               (get_remote_temp_directory cfg name)),
             .pathExistsQ (get_remote_temp_directory cfg name)]
      ∧ ∀ e ∈ (CacheSave.save cfg env defs name).effects, e.isLocalWrite = false := by
  have heq : CacheSave.save cfg env defs name
      = ⟨.ok (),
         [.runCommand (prepare_cache_cmd (sanitize_remote_path c.path)
            (get_remote_temp_directory cfg name)),
          .pathExistsQ (get_remote_temp_directory cfg name)],
         [.preparing name, .prepared name, .notFound name]⟩ := by
    simp [CacheSave.save, CacheSave.download, hdef, hprep, hexists]
  refine ⟨by rw [heq], by rw [heq], ?_⟩
  rw [heq]
  intro e he
  simp only [List.mem_cons, List.mem_singleton] at he
  rcases he with h | h | h
  · rw [h]; rfl
  · rw [h]; rfl
  · simp at h

/-- A concrete configuration for closed instances. -/
def cfgW : Config := ⟨"/c", "/r"⟩

/-- A concrete cache-definitions mapping holding only the name "a". -/
def defsW : String → Option Cache := fun n => if n = "a" then some ⟨"/x"⟩ else none

/-- A concrete save environment whose archive stream raises mid-stream. -/
def envS3 : SaveEnv :=
  ⟨fun _ => (0, ""), fun _ => true, "tmp3", [.chunk 3, .raiseErr "io"], false, [], id⟩

/-- A concrete save environment with a successful remote rename but an
absent staging path. -/
def envS5 : SaveEnv := ⟨fun _ => (0, ""), fun _ => false, "tmp5", [], false, [], id⟩

/-- Closed instance of `save_remote_miss_no_local_writes`. -/
theorem save_remote_miss_no_local_writes_witness :
    (CacheSave.save cfgW envS5 defsW "a").result = .ok ()
      ∧ ∀ e ∈ (CacheSave.save cfgW envS5 defsW "a").effects, e.isLocalWrite = false :=
  ⟨(save_remote_miss_no_local_writes cfgW envS5 defsW "a" ⟨"/x"⟩ rfl rfl rfl).1,
   (save_remote_miss_no_local_writes cfgW envS5 defsW "a" ⟨"/x"⟩ rfl rfl rfl).2.2⟩

/-- C3: an exception raised while streaming the remote archive leaves the
generic save returning normally, with the temporary file unlinked, nothing
ever written or renamed onto the final archive path; and for every
environment, the final archive path is only the target of a rename of the
fully streamed temporary file, which happens only when streaming raised no
error. -/
theorem save_stream_failure_is_soft (cfg : Config) (env : SaveEnv)
    (defs : String → Option Cache) (name : String) (c : Cache)
    (hdef : defs name = some c)
    (hprep : (env.runCommand (prepare_cache_cmd (sanitize_remote_path c.path)
        (get_remote_temp_directory cfg name))).1 = 0)
    (hexists : env.pathExists (get_remote_temp_directory cfg name) = true)
    (hfail : streamFails env.stream = true)
    (htmp : env.tmpName ≠ get_local_cache_archive_path cfg name) :
    (CacheSave.save cfg env defs name).result = .ok ()
    ∧ Effect.unlink env.tmpName ∈ (CacheSave.save cfg env defs name).effects
    ∧ (∀ s, Effect.rename s (get_local_cache_archive_path cfg name)
        ∉ (CacheSave.save cfg env defs name).effects)
    ∧ (∀ k, Effect.writeChunk (get_local_cache_archive_path cfg name) k
        ∉ (CacheSave.save cfg env defs name).effects)
    ∧ (∀ env' : SaveEnv, ∀ s,
        Effect.rename s (get_local_cache_archive_path cfg name)
          ∈ (CacheSave.save cfg env' defs name).effects →
        s = env'.tmpName ∧ streamFails env'.stream = false) := by
  have heq : CacheSave.save cfg env defs name
      = ⟨.ok (),
         .runCommand (prepare_cache_cmd (sanitize_remote_path c.path)
             (get_remote_temp_directory cfg name))
           :: ([.pathExistsQ (get_remote_temp_directory cfg name),
                .createTemp env.tmpName,
                .getArchive (get_remote_temp_directory cfg name)]
              ++ streamWrites env.tmpName env.stream ++ [.unlink env.tmpName]),
         [.preparing name, .prepared name, .downloading name,
          .errorGettingCache name (streamErrMsg env.stream)]⟩ := by
    simp [CacheSave.save, CacheSave.download, hdef, hprep, hexists, hfail]
  refine ⟨by rw [heq], ?_, ?_, ?_, ?_⟩
  · rw [heq]; simp
  · intro s
    rw [heq]
    simp [rename_mem_streamWrites_iff]
  · intro k hk
    rw [heq] at hk
    simp only [List.mem_cons, List.mem_append, List.mem_singleton] at hk
    rcases hk with h | h
    · simp at h
    rcases h with (h | h) | h
    · simp at h
    · exact htmp (writeChunk_file_eq_of_mem_streamWrites env.stream h).symm
    · simp at h
  · intro env' s h
    by_cases hp : (env'.runCommand (prepare_cache_cmd (sanitize_remote_path c.path)
        (get_remote_temp_directory cfg name))).1 = 0
    · by_cases he : env'.pathExists (get_remote_temp_directory cfg name) = true
      · by_cases hf' : streamFails env'.stream = true
        · simp [CacheSave.save, CacheSave.download, hdef, hp, he, hf',
            rename_mem_streamWrites_iff] at h
        · simp [CacheSave.save, CacheSave.download, hdef, hp, he, hf',
            rename_mem_streamWrites_iff] at h
          exact ⟨h, by simpa using hf'⟩
      · simp [CacheSave.save, CacheSave.download, hdef, hp, he] at h
    · simp [CacheSave.save, hdef, hp] at h

/-- Closed instance of `save_stream_failure_is_soft`. -/
theorem save_stream_failure_is_soft_witness :
    (CacheSave.save cfgW envS3 defsW "a").result = .ok ()
      ∧ Effect.unlink "tmp3" ∈ (CacheSave.save cfgW envS3 defsW "a").effects :=
  ⟨(save_stream_failure_is_soft cfgW envS3 defsW "a" ⟨"/x"⟩ rfl rfl rfl rfl
      (by decide)).1,
   (save_stream_failure_is_soft cfgW envS3 defsW "a" ⟨"/x"⟩ rfl rfl rfl rfl
      (by decide)).2.1⟩

/-- A concrete restore environment whose remote commands fail with captured
output "BOOM". -/
def envR6 : RestoreEnv := ⟨fun _ => true, fun _ => (1, "BOOM"), true, false, []⟩

/-- C6 counterexample: the staging-preparation command of the upload phase
fails with exit code 1 and captured output "BOOM", the raised error is
"Error uploading cache: app", and that message does not contain the
captured output — refuting that both remote-command failures raise an
error that includes the captured output. -/
theorem restore_upload_error_omits_output_counterexample :
    (envR6.runCommand (prepare_cache_dir_cmd (get_remote_temp_directory cfgW "app")
        (ospathDirname (get_remote_temp_directory cfgW "app")))) = (1, "BOOM")
    ∧ (CacheRestore.restore cfgW envR6 defsW "app").result
        = .error (.exn "Error uploading cache: app")
    ∧ strContains "Error uploading cache: app" "BOOM" = false := by
  refine ⟨rfl, by decide, by decide⟩

/-- C6 amended: during generic restore a non-zero exit code from either
remote command raises an error fatal for that cache name; the restore-phase
placement error message includes the captured output, while the upload-phase
preparation error message is just "Error uploading cache: " plus the name —
there the captured output is only logged. -/
theorem restore_remote_failures_fatal (cfg : Config) (env : RestoreEnv)
    (defs : String → Option Cache) (name : String)
    (hlocal : env.localExists (get_local_cache_archive_path cfg name) = true) :
    ((env.runCommand (prepare_cache_dir_cmd (get_remote_temp_directory cfg name)
        (ospathDirname (get_remote_temp_directory cfg name)))).1 ≠ 0 →
      (CacheRestore.restore cfg env defs name).result
          = .error (.exn ("Error uploading cache: " ++ name))
        ∧ LogMsg.remoteCommandFailed
            (env.runCommand (prepare_cache_dir_cmd (get_remote_temp_directory cfg name)
              (ospathDirname (get_remote_temp_directory cfg name)))).2
            ∈ (CacheRestore.restore cfg env defs name).logs)
    ∧ (∀ c, defs name = some c →
        (env.runCommand (prepare_cache_dir_cmd (get_remote_temp_directory cfg name)
          (ospathDirname (get_remote_temp_directory cfg name)))).1 = 0 →
        env.putArchiveOk = true →
        (env.runCommand (restore_cache_script (get_remote_temp_directory cfg name)
          (sanitize_remote_path c.path))).1 ≠ 0 →
        (CacheRestore.restore cfg env defs name).result
          = .error (.exn ("Error restoring cache: " ++ name ++ ": "
              ++ (env.runCommand (restore_cache_script (get_remote_temp_directory cfg name)
                   (sanitize_remote_path c.path))).2))) := by
  constructor
  · intro hprep
    constructor
    · simp [CacheRestore.restore, hlocal, hprep]
    · simp [CacheRestore.restore, hlocal, hprep]
  · intro c hdef hprep hput hrest
    simp [CacheRestore.restore, hlocal, hprep, hput, hdef, hrest]

/-- Closed instance of `restore_remote_failures_fatal`. -/
theorem restore_remote_failures_fatal_witness :
    (CacheRestore.restore cfgW envR6 defsW "app").result
      = .error (.exn "Error uploading cache: app") :=
  ((restore_remote_failures_fatal cfgW envR6 defsW "app" rfl).1 (by decide)).1

/-- C10: both generic strategies index `cache_definitions` without a guard:
for a name absent from the mapping, generic save raises a `KeyError` before
issuing any remote command, while generic restore (when the local archive
exists and the upload phase succeeded) raises a `KeyError` only after the
archive was already uploaded into the staging directory by `put_archive`;
neither raised failure is a transfer `Exception`. -/
theorem unguarded_definitions_lookup (cfg : Config) (envS : SaveEnv)
    (envR : RestoreEnv) (defs : String → Option Cache) (name : String)
    (hdef : defs name = none) :
    CacheSave.save cfg envS defs name = ⟨.error (.keyError name), [], []⟩
    ∧ (envR.localExists (get_local_cache_archive_path cfg name) = true →
       (envR.runCommand (prepare_cache_dir_cmd (get_remote_temp_directory cfg name)
          (ospathDirname (get_remote_temp_directory cfg name)))).1 = 0 →
       envR.putArchiveOk = true →
       (CacheRestore.restore cfg envR defs name).result = .error (.keyError name)
       ∧ Effect.putArchive (ospathDirname (get_remote_temp_directory cfg name))
           ∈ (CacheRestore.restore cfg envR defs name).effects)
    ∧ CacheError.isTransfer (.keyError name) = false := by
  refine ⟨by simp [CacheSave.save, hdef], ?_, rfl⟩
  intro hlocal hprep hput
  constructor
  · simp [CacheRestore.restore, hlocal, hprep, hput, hdef]
  · simp [CacheRestore.restore, hlocal, hprep, hput, hdef]

/-- A concrete restore environment where every remote interaction
succeeds. -/
def envR10 : RestoreEnv := ⟨fun _ => true, fun _ => (0, "ok"), true, false, []⟩

/-- Closed instance of `unguarded_definitions_lookup`. -/
theorem unguarded_definitions_lookup_witness :
    CacheSave.save cfgW envS3 (fun _ => none) "missing"
        = ⟨.error (.keyError "missing"), [], []⟩
      ∧ (CacheRestore.restore cfgW envR10 (fun _ => none) "missing").result
          = .error (.keyError "missing") :=
  ⟨(unguarded_definitions_lookup cfgW envS3 envR10 (fun _ => none) "missing" rfl).1,
   ((unguarded_definitions_lookup cfgW envS3 envR10 (fun _ => none) "missing"
      rfl).2.1 rfl rfl rfl).1⟩

/-- A concrete save environment whose remote rename-to-staging command
fails with captured output "boom". -/
def envS1 : SaveEnv := ⟨fun _ => (1, "boom"), fun _ => true, "tmp1", [], false, [], id⟩

/-- C1 counterexample: a per-name transfer failure in saveAll
(`CacheManager.download`) — here the remote rename-to-staging command of
name "a" failing — is not caught: the error propagates out of the loop and
the later name "b" is never processed, refuting that saveAll catches any
per-name transfer failure and continues with all remaining names. -/
theorem saveAll_stops_at_prepare_failure_counterexample :
    CacheManager.download cfgW (fun _ => envS1) defsW ["a", "b"]
      = (.error (.exn "Error preparing cache: a: boom"), ["a"]) := by decide

/-- C1 amended: restoreAll (`CacheManager.upload`) stops at the first name
whose restore raises, and saveAll (`CacheManager.download`) has the very
same loop policy — a raised per-name error (missing definition, failed
rename-to-staging command) propagates immediately and aborts the remaining
names. Only failures raised while streaming the archive are caught, logged
and treated as nothing to save inside the save strategy itself (given a
successful rename-to-staging, save always returns normally), so the loop
continues past those. -/
theorem manager_loop_error_policy :
    (∀ (cfg : Config) (envs : String → RestoreEnv) (defs : String → Option Cache)
       (pre : List String) (n : String) (post : List String) (e : CacheError),
       (∀ m ∈ pre, (runRestore cfg (envs m) defs m).result = .ok ()) →
       (runRestore cfg (envs n) defs n).result = .error e →
       CacheManager.upload cfg envs defs (pre ++ n :: post) = (.error e, pre ++ [n]))
    ∧ (∀ (cfg : Config) (envs : String → SaveEnv) (defs : String → Option Cache)
       (pre : List String) (n : String) (post : List String) (e : CacheError),
       (∀ m ∈ pre, (runSave cfg (envs m) defs m).result = .ok ()) →
       (runSave cfg (envs n) defs n).result = .error e →
       CacheManager.download cfg envs defs (pre ++ n :: post) = (.error e, pre ++ [n]))
    ∧ (∀ (cfg : Config) (env : SaveEnv) (defs : String → Option Cache)
       (name : String) (c : Cache),
       defs name = some c →
       (env.runCommand (prepare_cache_cmd (sanitize_remote_path c.path)
          (get_remote_temp_directory cfg name))).1 = 0 →
       (CacheSave.save cfg env defs name).result = .ok ()
       ∧ (streamFails env.stream = true →
          env.pathExists (get_remote_temp_directory cfg name) = true →
          LogMsg.errorGettingCache name (streamErrMsg env.stream)
            ∈ (CacheSave.save cfg env defs name).logs))
    ∧ (∀ (cfg : Config) (envs : String → SaveEnv) (defs : String → Option Cache)
       (names : List String),
       (∀ n ∈ names, (runSave cfg (envs n) defs n).result = .ok ()) →
       CacheManager.download cfg envs defs names = (.ok (), names)) := by
  refine ⟨?_, ?_, ?_, ?_⟩
  · intro cfg envs defs pre n post e hpre hn
    exact runAll_first_error _ pre n post e hpre hn
  · intro cfg envs defs pre n post e hpre hn
    exact runAll_first_error _ pre n post e hpre hn
  · intro cfg env defs name c hdef hprep
    constructor
    · by_cases he : env.pathExists (get_remote_temp_directory cfg name) = true
      · by_cases hf : streamFails env.stream = true
        · simp [CacheSave.save, CacheSave.download, hdef, hprep, he, hf]
        · simp [CacheSave.save, CacheSave.download, hdef, hprep, he, hf]
      · simp [CacheSave.save, CacheSave.download, hdef, hprep, he]
    · intro hf he
      simp [CacheSave.save, CacheSave.download, hdef, hprep, he, hf]
  · intro cfg envs defs names h
    exact runAll_all_ok _ names h

/-- Closed instance of `manager_loop_error_policy`. -/
theorem manager_loop_error_policy_witness :
    CacheManager.download cfgW (fun _ => envS3) defsW ["a"] = (.ok (), ["a"]) :=
  manager_loop_error_policy.2.2.2 cfgW (fun _ => envS3) defsW ["a"] (by decide)

/-- `Effect.rename` never occurs among the effects of one image export
except as the final rename of that image's own temporary file, and only
when its stream raised no error. -/
theorem rename_mem_saveImage {s d : String} {img : DockerImage} {dst : String}
    (h : Effect.rename s d ∈ DockerCacheSave.saveImage img dst) :
    s = img.tmpName ∧ streamFails img.saveStream = false := by
  unfold DockerCacheSave.saveImage at h
  by_cases hf : streamFails img.saveStream = true
  · simp [hf, rename_mem_streamWrites_iff] at h
  · simp [hf, rename_mem_streamWrites_iff] at h
    exact ⟨h.1, by simpa using hf⟩

/-- C9: the specialized container-image save exports each image of the
runtime's image list to its own archive under the docker subdirectory of
the local cache directory, named from the slug of the image's first tag
when tags exist and else from its content id, via a per-image temporary
file renamed into place only when that image's export stream raised no
error; a failing export unlinks that image's temporary file and the
remaining images are still exported. -/
theorem docker_save_per_image_isolation (cfg : Config) (env : SaveEnv)
    (name : String)
    (hnodup : (env.images.map DockerImage.tmpName).Nodup) :
    (DockerCacheSave.save cfg env name).result = .ok ()
    ∧ ∀ img ∈ env.images,
        Effect.createTemp img.tmpName ∈ (DockerCacheSave.save cfg env name).effects
        ∧ (streamFails img.saveStream = true →
            Effect.unlink img.tmpName ∈ (DockerCacheSave.save cfg env name).effects
            ∧ ∀ d, Effect.rename img.tmpName d
                ∉ (DockerCacheSave.save cfg env name).effects)
        ∧ (streamFails img.saveStream = false →
            Effect.rename img.tmpName
                (ospathJoin (ospathJoin cfg.localCacheDir "docker")
                  (dockerImageArchiveName env.slugify img ++ ".tar"))
              ∈ (DockerCacheSave.save cfg env name).effects) := by
  have heff : (DockerCacheSave.save cfg env name).effects
      = (if env.dockerDirExists then []
          else [.makeDirs (ospathJoin cfg.localCacheDir "docker")])
        ++ env.images.flatMap (fun img =>
            DockerCacheSave.saveImage img
              (ospathJoin (ospathJoin cfg.localCacheDir "docker")
                (dockerImageArchiveName env.slugify img ++ ".tar"))) := rfl
  refine ⟨rfl, ?_⟩
  intro img himg
  refine ⟨?_, ?_, ?_⟩
  · rw [heff]
    refine List.mem_append_right _ (List.mem_flatMap.2 ⟨img, himg, ?_⟩)
    simp [DockerCacheSave.saveImage]
  · intro hfail
    constructor
    · rw [heff]
      refine List.mem_append_right _ (List.mem_flatMap.2 ⟨img, himg, ?_⟩)
      simp [DockerCacheSave.saveImage, hfail]
    · intro d h
      rw [heff] at h
      rcases List.mem_append.1 h with hmk | hfl
      · by_cases hd : env.dockerDirExists = true
        · simp [hd] at hmk
        · simp [hd] at hmk
      · rcases List.mem_flatMap.1 hfl with ⟨img', himg', hmem⟩
        rcases rename_mem_saveImage hmem with ⟨heq, hok⟩
        have himgeq : img = img' :=
          List.inj_on_of_nodup_map hnodup himg himg' heq
        rw [← himgeq] at hok
        rw [hfail] at hok
        exact absurd hok (by simp)
  · intro hok
    rw [heff]
    refine List.mem_append_right _ (List.mem_flatMap.2 ⟨img, himg, ?_⟩)
    simp [DockerCacheSave.saveImage, hok]

/-- A concrete save environment holding two docker images, the second of
which fails to export. -/
def envS9 : SaveEnv :=
  ⟨fun _ => (0, ""), fun _ => true, "t0", [], true,
   [⟨["repo/img:latest"], "sha256:abc", [.chunk 2], "t1"⟩,
    ⟨[], "sha256:def", [.raiseErr "x"], "t2"⟩], id⟩

/-- Closed instance of `docker_save_per_image_isolation`. -/
theorem docker_save_per_image_isolation_witness :
    (DockerCacheSave.save cfgW envS9 "docker").result = .ok ()
    ∧ Effect.unlink "t2" ∈ (DockerCacheSave.save cfgW envS9 "docker").effects :=
  ⟨(docker_save_per_image_isolation cfgW envS9 "docker" (by decide)).1,
   ((docker_save_per_image_isolation cfgW envS9 "docker" (by decide)).2
      ⟨[], "sha256:def", [.raiseErr "x"], "t2"⟩ (by decide)).2.1 rfl |>.1⟩

/-- C7: a `Pipeline` whose `variables` item is the first element parses
successfully, preserving the ordered items; an element carrying
`variables` at any index other than 0 makes parsing fail with the stable
message, which contains "variables" and "first element", and no parsed
pipeline is produced. -/
theorem variables_first_rule :
    (∀ (first : PipelineItem) (rest : List PipelineItem),
       (∀ it ∈ rest, it.isVariables = false) →
       Pipeline.parse (first :: rest) = .ok (first :: rest))
    ∧ (∀ (pre : List PipelineItem) (it : PipelineItem) (post : List PipelineItem),
       it.isVariables = true → pre ≠ [] →
       Pipeline.parse (pre ++ it :: post) = .error variablesFirstMsg)
    ∧ strContains variablesFirstMsg "variables" = true
    ∧ strContains variablesFirstMsg "first element" = true := by
  refine ⟨?_, ?_, by decide, by decide⟩
  · intro first rest h
    have hany : rest.any PipelineItem.isVariables = false := by
      rw [List.any_eq_false]
      intro x hx
      simp [h x hx]
    simp [Pipeline.parse, hany]
  · intro pre it post hvar hpre
    match pre, hpre with
    | p :: pre', _ =>
        have hany : (pre' ++ it :: post).any PipelineItem.isVariables = true :=
          List.any_eq_true.2 ⟨it, by simp, hvar⟩
        simp [Pipeline.parse, hany]

/-- Closed instance of `variables_first_rule`, mirroring the two pipeline
fixtures of the tests. -/
theorem variables_first_rule_witness :
    Pipeline.parse
        [.variables [⟨"foo", none⟩, ⟨"bar", none⟩],
         .stepItem ⟨some "Step 1", ["exit 0"]⟩]
      = .ok
        [.variables [⟨"foo", none⟩, ⟨"bar", none⟩],
         .stepItem ⟨some "Step 1", ["exit 0"]⟩]
    ∧ Pipeline.parse
        [.stepItem ⟨some "Step 1", ["exit 0"]⟩,
         .variables [⟨"foo", none⟩, ⟨"bar", none⟩]]
      = .error variablesFirstMsg :=
  ⟨variables_first_rule.1 (.variables [⟨"foo", none⟩, ⟨"bar", none⟩])
      [.stepItem ⟨some "Step 1", ["exit 0"]⟩] (by decide),
   variables_first_rule.2.1 [.stepItem ⟨some "Step 1", ["exit 0"]⟩]
      (.variables [⟨"foo", none⟩, ⟨"bar", none⟩]) [] rfl (by decide)⟩

/-- The variable mapping of the image-expansion test. -/
def testEnv8 : String → Option String := fun n =>
  if n = "IMAGE_NAME" then some "alpine:latest"
  else if n = "REPO_USERNAME" then some "my-username"
  else if n = "REPO_PASSWORD" then some "my-password"
  else if n = "REPO_EMAIL" then some "my-email"
  else if n = "AWS_ACCESS_KEY_ID" then some "access-key-id"
  else if n = "AWS_SECRET_ACCESS_KEY" then some "secret-access-key"
  else none

/-- The image of the image-expansion test, every string field a token. -/
def testImg8 : Image :=
  { name := "$\x7bIMAGE_NAME\x7d"
    username := some "$REPO_USERNAME"
    password := some "$REPO_PASSWORD"
    email := some "$REPO_EMAIL"
    run_as_user := none
    aws := some ⟨"$AWS_ACCESS_KEY_ID", "$AWS_SECRET_ACCESS_KEY"⟩ }

/-- C8: expansion leaves `Image.name` byte-for-byte unchanged for every
image and every mapping, while the other string fields are substituted
through `expandVars`; on the test fixture the name keeps its token — which
the mapping would expand — and all other fields are substituted. -/
theorem image_name_never_expanded :
    (∀ (env : String → Option String) (img : Image),
       (Image.expand_env_vars env img).name = img.name
       ∧ (Image.expand_env_vars env img).username = img.username.map (expandVars env)
       ∧ (Image.expand_env_vars env img).password = img.password.map (expandVars env)
       ∧ (Image.expand_env_vars env img).email = img.email.map (expandVars env)
       ∧ (Image.expand_env_vars env img).aws
           = img.aws.map (AwsCredentials.expand_env_vars env))
    ∧ Image.expand_env_vars testEnv8 testImg8
        = { name := "$\x7bIMAGE_NAME\x7d"
            username := some "my-username"
            password := some "my-password"
            email := some "my-email"
            run_as_user := none
            aws := some ⟨"access-key-id", "secret-access-key"⟩ }
    ∧ expandVars testEnv8 "$\x7bIMAGE_NAME\x7d" = "alpine:latest" := by
  refine ⟨fun env img => ⟨rfl, rfl, rfl, rfl, rfl⟩, by decide, by decide⟩

end PipelineRunner
